import Mathlib

/-!
Verification of the Ghostmap SEIRD grid simulation.

The definitions below are a shallow embedding of the current C++ sources
(`hostmap.hpp` and `pathogen.hpp`, plus the console driver loop).  The
process-wide `std::default_random_engine` is modelled as an explicit
generator state of an abstract type `σ` threaded through every draw; the
local generator created inside `seedDisease` is modelled likewise with an
abstract type `τ`.  The 16-bit `short` fields of a host are modelled as
unbounded integers: no value reachable by the modelled operations
approaches the `short` range, so overflow is irrelevant to the claims.
The floating-point half-width computation
`lround((sqrt(t + 1) - 1) / 2)` in `HostMap::computeContacts` is
abstracted as a parameter `radius : Int → Nat`; every theorem about the
grid step holds for an arbitrary radius function.
-/

set_option maxRecDepth 4000

namespace Ghostmap

/-- Host cell: the C++ `std::tuple<short,short,short>` of pathogen.hpp.
`stage` is 0 = susceptible, 1 = exposed, 2 = infected, 3 = resolved,
4 = recovered, 5 = deceased; `days` is the days remaining in the current
stage; `contacts` the size of the contact neighborhood. -/
structure Host where
  stage : Int
  days : Int
  contacts : Int
deriving DecidableEq, Repr

/-- Pathogen parameters together with its stochastic draws.  Each
distribution member of the C++ class becomes a function consuming the
shared generator state. -/
structure Pathogen (σ : Type) where
  pcatch : σ → Bool × σ
  pdie : σ → Bool × σ
  edist : σ → Nat × σ
  idist : σ → Nat × σ
  ndist : σ → Nat × σ
  minE : Int
  minI : Int

variable {σ : Type} {τ : Type}

/-- `Pathogen::isSusceptible`. -/
def isSusceptibleB (h : Host) : Bool := h.stage == 0

/-- `Pathogen::isExposed`. -/
def isExposedB (h : Host) : Bool := h.stage == 1

/-- `Pathogen::isInfectious`. -/
def isInfectiousB (h : Host) : Bool := h.stage == 2

/-- `Pathogen::hasRunCourse`. -/
def hasRunCourseB (h : Host) : Bool := h.stage == 3

/-- `Pathogen::isRecovered`. -/
def isRecoveredB (h : Host) : Bool := h.stage == 4

/-- `Pathogen::isDeceased`. -/
def isDeceasedB (h : Host) : Bool := h.stage == 5

/-- `Pathogen::will_catch`: one Bernoulli draw for transmission. -/
def willCatch (p : Pathogen σ) (g : σ) : Bool × σ := p.pcatch g

/-- `Pathogen::will_die`: one Bernoulli draw for death. -/
def willDie (p : Pathogen σ) (g : σ) : Bool × σ := p.pdie g

/-- `Pathogen::incubationPeriod`: `minE + edist(rng)`. -/
def incubationPeriod (p : Pathogen σ) (g : σ) : Int × σ :=
  let e := p.edist g
  (p.minE + (e.1 : Int), e.2)

/-- `Pathogen::infectionPeriod`: `minI + idist(rng)`. -/
def infectionPeriod (p : Pathogen σ) (g : σ) : Int × σ :=
  let d := p.idist g
  (p.minI + (d.1 : Int), d.2)

/-- `Pathogen::numNeighbors`: `1 + ndist(rng)`. -/
def numNeighbors (p : Pathogen σ) (g : σ) : Int × σ :=
  let n := p.ndist g
  (1 + (n.1 : Int), n.2)

/-- `Pathogen::recover`: set stage to 4. -/
def recover (h : Host) : Host := { h with stage := 4 }

/-- `Pathogen::kill`: set stage to 5. -/
def kill (h : Host) : Host := { h with stage := 5 }

/-- `Pathogen::infect`: stage becomes 1 and the incubation period is drawn. -/
def infect (p : Pathogen σ) (h : Host) (g : σ) : Host × σ :=
  let e := incubationPeriod p g
  ({ h with stage := 1, days := e.1 }, e.2)

/-- `Pathogen::expose`: draw transmission and infect on success. -/
def expose (p : Pathogen σ) (h : Host) (g : σ) : Host × σ :=
  let c := willCatch p g
  if c.1 then infect p h c.2 else (h, c.2)

/-- `Pathogen::expire`: draw death, then kill or recover. -/
def expire (p : Pathogen σ) (h : Host) (g : σ) : Host × σ :=
  let d := willDie p g
  if d.1 then (kill h, d.2) else (recover h, d.2)

/-- `Pathogen::worsen`: decrement the days remaining; on reaching zero
advance the stage, then either expire (stage 3) or draw the infection
period. -/
def worsen (p : Pathogen σ) (h : Host) (g : σ) : Host × σ :=
  let h1 : Host := { h with days := h.days - 1 }
  if h1.days == 0 then
    let h2 : Host := { h1 with stage := h1.stage + 1 }
    if hasRunCourseB h2 then
      expire p h2 g
    else
      let d := infectionPeriod p g
      ({ h2 with days := d.1 }, d.2)
  else (h1, g)

/-- The grid of hosts, `std::vector<std::vector<Host>>`. -/
abbrev Grid := List (List Host)

/-- A value-initialized `Host` tuple (all shorts zero). -/
def defaultHost : Host := ⟨0, 0, 0⟩

/-- `HostMap::row_count`. -/
def rowCount (m : Grid) : Nat := m.length

/-- `HostMap::col_count`: the length of row 0. -/
def colCount (m : Grid) : Nat := (m.getD 0 []).length

/-- Read a cell of a row; out-of-range reads yield the default host.  In
the C++ an out-of-range `operator[]` is undefined behavior; the model
makes such reads return the value-initialized host. -/
def rowGet (r : List Host) (b : Int) : Host :=
  if 0 ≤ b then r.getD b.toNat defaultHost else defaultHost

/-- Read the cell at row `a`, column `b`. -/
def getC (m : Grid) (a b : Int) : Host :=
  if 0 ≤ a then rowGet (m.getD a.toNat []) b else defaultHost

/-- Write the cell at row `a`, column `b`; out-of-range writes (undefined
behavior in the C++) leave the grid unchanged. -/
def setC (m : Grid) (a b : Int) (x : Host) : Grid :=
  if 0 ≤ a ∧ 0 ≤ b then m.set a.toNat ((m.getD a.toNat []).set b.toNat x) else m

/-- The per-axis wrap of `HostMap::getNeighbor`:
`i = (i < 0) ? (N + i) : (i >= N ? (i - N) : i)`. -/
def wrapIdx (x n : Int) : Int :=
  if x < 0 then n + x else if x ≥ n then x - n else x

/-- `HostMap::getNeighbor`: the cell at the wrapped coordinates. -/
def getNeighbor (m : Grid) (i j : Int) : Host :=
  getC m (wrapIdx i (rowCount m : Int)) (wrapIdx j (colCount m : Int))

/-- One visit of the inner loop of `HostMap::computeContacts`: read the
neighbor cell through the toroidal wrap and, if it is susceptible,
expose it (writing the result back through the same wrapped index). -/
def exposeAt (p : Pathogen σ) (s : Grid × σ) (i j : Int) : Grid × σ :=
  let a := wrapIdx i (rowCount s.1 : Int)
  let b := wrapIdx j (colCount s.1 : Int)
  let x := getC s.1 a b
  if isSusceptibleB x then
    let r := expose p x s.2
    (setC s.1 a b r.1, r.2)
  else s

/-- The offsets `-k, …, k` in ascending order. -/
def offs (k : Nat) : List Int :=
  (List.range (2 * k + 1)).map (fun n => (n : Int) - (k : Int))

/-- The visit order of `computeContacts`: `hi` outer, `hj` inner, both
ascending. -/
def offPairs (k : Nat) : List (Int × Int) :=
  (offs k).flatMap (fun di => (offs k).map (fun dj => (di, dj)))

/-- `HostMap::computeContacts` for the host at `(i, j)`, with the
half-width computation abstracted as `radius`. -/
def computeContacts (p : Pathogen σ) (radius : Int → Nat) (i j : Nat)
    (s : Grid × σ) : Grid × σ :=
  let t := (getC s.1 (i : Int) (j : Int)).contacts
  let k := radius t
  (offPairs k).foldl (fun acc d => exposeAt p acc ((i : Int) + d.1) ((j : Int) + d.2)) s

/-- The body of the double loop of `HostMap::computeNext` for one scan
position: dispatch on yesterday's stage, worsen today's cell, and for an
infectious host also run the contact search on the in-progress grid. -/
def stepCell (p : Pathogen σ) (radius : Int → Nat) (prev : Grid)
    (acc : Grid × σ) (ij : Nat × Nat) : Grid × σ :=
  let cp := getC prev (ij.1 : Int) (ij.2 : Int)
  if isExposedB cp then
    let r := worsen p (getC acc.1 (ij.1 : Int) (ij.2 : Int)) acc.2
    (setC acc.1 (ij.1 : Int) (ij.2 : Int) r.1, r.2)
  else if isInfectiousB cp then
    let r := worsen p (getC acc.1 (ij.1 : Int) (ij.2 : Int)) acc.2
    computeContacts p radius ij.1 ij.2 (setC acc.1 (ij.1 : Int) (ij.2 : Int) r.1, r.2)
  else acc

/-- Row-major scan order of the double loop in `HostMap::computeNext`. -/
def idxList (n m : Nat) : List (Nat × Nat) :=
  (List.range n).flatMap (fun i => (List.range m).map (fun j => (i, j)))

/-- `HostMap::computeNext`: copy the grid as yesterday's snapshot and
scan it in row-major order, updating today's grid in place. -/
def computeNext (p : Pathogen σ) (radius : Int → Nat) (m : Grid) (g : σ) :
    Grid × σ :=
  (idxList (rowCount m) (colCount m)).foldl (stepCell p radius m) (m, g)

/-- Iterated `computeNext`. -/
def advanceN (p : Pathogen σ) (radius : Int → Nat) : Nat → Grid × σ → Grid × σ
  | 0, s => s
  | n + 1, s => advanceN p radius n (computeNext p radius s.1 s.2)

/-- One row of `HostMap::reset`: every cell becomes
`(0, 0, numNeighbors())`, drawing left to right. -/
def resetRow (p : Pathogen σ) : List Host → σ → List Host × σ
  | [], g => ([], g)
  | _ :: rest, g =>
    let n := numNeighbors p g
    let r := resetRow p rest n.2
    (⟨0, 0, n.1⟩ :: r.1, r.2)

/-- `HostMap::reset`, rows top to bottom. -/
def resetGrid (p : Pathogen σ) : Grid → σ → Grid × σ
  | [], g => ([], g)
  | row :: rest, g =>
    let r := resetRow p row g
    let rr := resetGrid p rest r.2
    (r.1 :: rr.1, rr.2)

/-- One row of the `HostMap` constructor loop: only the contact count of
each (value-initialized) cell is assigned. -/
def initRow (p : Pathogen σ) : List Host → σ → List Host × σ
  | [], g => ([], g)
  | c :: rest, g =>
    let n := numNeighbors p g
    let r := initRow p rest n.2
    ({ c with contacts := n.1 } :: r.1, r.2)

/-- The constructor loop over all rows. -/
def initGrid (p : Pathogen σ) : Grid → σ → Grid × σ
  | [], g => ([], g)
  | row :: rest, g =>
    let r := initRow p row g
    let rr := initGrid p rest r.2
    (r.1 :: rr.1, rr.2)

/-- The `HostMap` constructor: an `r × c` grid of value-initialized
hosts whose contact counts are then drawn in row-major order. -/
def construct (p : Pathogen σ) (r c : Nat) (g : σ) : Grid × σ :=
  initGrid p (List.replicate r (List.replicate c defaultHost)) g

/-- Count the cells satisfying a predicate, row by row. -/
def countCells (q : Host → Bool) (m : Grid) : Nat :=
  (m.map (fun row => row.countP q)).sum

/-- `HostMap::countInfected`: exposed plus infectious. -/
def countInfected (m : Grid) : Nat :=
  countCells (fun h => isExposedB h || isInfectiousB h) m

/-- `HostMap::countRecovered`. -/
def countRecovered (m : Grid) : Nat := countCells isRecoveredB m

/-- `HostMap::countDeceased`. -/
def countDeceased (m : Grid) : Nat := countCells isDeceasedB m

/-- The number of susceptible cells.  The C++ class has no such member;
the spec's population-conservation property refers to this count. -/
def countSusceptible (m : Grid) : Nat := countCells isSusceptibleB m

/-- `HostMap::countInfected` as called on a map-with-generator state: a
`const` method that reads the cells and touches no generator. -/
def countInfectedOp (s : Grid × σ) : Nat × (Grid × σ) := (countInfected s.1, s)

/-- `HostMap::countRecovered` on a map-with-generator state. -/
def countRecoveredOp (s : Grid × σ) : Nat × (Grid × σ) := (countRecovered s.1, s)

/-- `HostMap::countDeceased` on a map-with-generator state. -/
def countDeceasedOp (s : Grid × σ) : Nat × (Grid × σ) := (countDeceased s.1, s)

/-- The row index computed by `HostMap::seedDisease`: `k / size()`,
dividing by the row count. -/
def seedRowIdx (m : Grid) (k : Nat) : Nat := k / m.length

/-- The column index computed by `HostMap::seedDisease`: `k % size()`,
reducing modulo the row count. -/
def seedColIdx (m : Grid) (k : Nat) : Nat := k % m.length

/-- `HostMap::seedDisease`: `count` draws from the local generator `lg`
pick flat indices; each picked cell is infected (consuming an incubation
draw from the shared generator). -/
def seedDisease (p : Pathogen σ) (dunif : τ → Nat × τ) :
    Nat → Grid → τ → σ → Grid × τ × σ
  | 0, m, lg, g => (m, lg, g)
  | count + 1, m, lg, g =>
    let d := dunif lg
    let i := seedRowIdx m d.1
    let j := seedColIdx m d.1
    let r := infect p (getC m (i : Int) (j : Int)) g
    seedDisease p dunif count (setC m (i : Int) (j : Int) r.1) d.2 r.2

/-- The character `HostMap::print` emits for one cell, with the same
branch structure as the source (the infectious test is nested inside the
exposed branch). -/
def cellChar (h : Host) : Char :=
  if isSusceptibleB h then 's'
  else if isExposedB h then
    (if isInfectiousB h then 'I' else 'e')
  else if isDeceasedB h then ' '
  else if isRecoveredB h then 'R'
  else '!'

/-- The full text rendering of `HostMap::print`, one row per line. -/
def renderGrid (m : Grid) : List (List Char) :=
  m.map (fun row => row.map cellChar)

/-- The line printed by `HostMap::printSummary`. -/
def summaryLine (m : Grid) : String :=
  toString (countDeceased m) ++ " died, " ++
  toString (countRecovered m) ++ " recovered, " ++
  toString (countInfected m) ++ " still infected."

/-- The driver loop `while (map.countInfected() > 0 && t++ < T)
map.computeNext();` of the console branch of `main` (identical in
`Scenario::runSim`), instrumented with the number of `computeNext`
calls actually performed. -/
def runAux (p : Pathogen σ) (radius : Int → Nat) (T : Nat)
    (s : Grid × σ) (t calls : Nat) : (Grid × σ) × Nat × Nat :=
  if countInfected s.1 > 0 then
    if h : t < T then
      runAux p radius T (computeNext p radius s.1 s.2) (t + 1) (calls + 1)
    else (s, t + 1, calls)
  else (s, t, calls)
termination_by T - t
decreasing_by omega

/-- The driver loop started at day zero; returns the final state, the
reported day counter `t`, and the number of `computeNext` calls. -/
def runSim (p : Pathogen σ) (radius : Int → Nat) (T : Nat) (s : Grid × σ) :
    (Grid × σ) × Nat × Nat :=
  runAux p radius T s 0 0

/-- States reachable by any sequence of construction, `seedDisease`,
`reset`, and `computeNext` calls, threading the shared generator. -/
inductive Reachable (p : Pathogen σ) (radius : Int → Nat) : Grid × σ → Prop where
  | init (r c : Nat) (g : σ) : Reachable p radius (construct p r c g)
  | reset (s : Grid × σ) : Reachable p radius s →
      Reachable p radius (resetGrid p s.1 s.2)
  | seed (s : Grid × σ) (τ : Type) (dunif : τ → Nat × τ) (lg : τ) (count : Nat) :
      Reachable p radius s →
      Reachable p radius
        ((seedDisease p dunif count s.1 lg s.2).1,
         (seedDisease p dunif count s.1 lg s.2).2.2)
  | advance (s : Grid × σ) : Reachable p radius s →
      Reachable p radius (computeNext p radius s.1 s.2)

/-- The stages that can be observed between steps. -/
def okStage (s : Int) : Prop := s = 0 ∨ s = 1 ∨ s = 2 ∨ s = 4 ∨ s = 5

/-- One observable step of the SEIRD chain: the stage stays, or moves to
its immediate successor, or (for an infectious host) passes through the
transient resolved stage to one of the two terminal stages. -/
def fwdS (a b : Int) : Prop :=
  b = a ∨ (a = 0 ∧ b = 1) ∨ (a = 1 ∧ b = 2) ∨ (a = 2 ∧ (b = 4 ∨ b = 5))

/-- Rectangularity: every row has the length of row 0. -/
def IsRect (m : Grid) : Prop := ∀ row ∈ m, row.length = colCount m

/-- Invariant carried through the row-major scan of `computeNext`:
every cell of the in-progress grid is one observable step ahead of the
snapshot, and every not-yet-visited cell that was exposed or infectious
in the snapshot still carries its snapshot stage. -/
def StepInv (prev cur : Grid) (todo : List (Nat × Nat)) : Prop :=
  (∀ a b : Int, fwdS (getC prev a b).stage (getC cur a b).stage) ∧
  (∀ q ∈ todo,
    ((getC prev (q.1 : Int) (q.2 : Int)).stage = 1 ∨
     (getC prev (q.1 : Int) (q.2 : Int)).stage = 2) →
    (getC cur (q.1 : Int) (q.2 : Int)).stage =
      (getC prev (q.1 : Int) (q.2 : Int)).stage)

/-- Two grids with the same number of rows and the same row lengths. -/
def sameShape (m m' : Grid) : Prop :=
  m.length = m'.length ∧ ∀ n : Nat, (m.getD n []).length = (m'.getD n []).length

/-- Concrete deterministic pathogen over a step-counter generator, used
to evaluate the model on concrete inputs. -/
def pC : Pathogen Nat :=
  { pcatch := fun n => (true, n + 1)
    pdie := fun n => (true, n + 1)
    edist := fun n => (n, n + 1)
    idist := fun n => (n, n + 1)
    ndist := fun n => (n, n + 1)
    minE := 2
    minI := 7 }

/-- Concrete radius function for concrete evaluations. -/
def radiusC : Int → Nat := fun _ => 1

/-- Concrete local uniform generator for seeding evaluations. -/
def dC : Nat → Nat × Nat := fun n => (n * 37 % 100, n + 1)

/-- A 10 × 10 all-susceptible grid. -/
def gridTen : Grid := List.replicate 10 (List.replicate 10 defaultHost)

/-- A 1 × 1 grid holding one exposed host. -/
def gridOneInf : Grid := [[⟨1, 1, 0⟩]]

/-- A non-square 2 × 3 all-susceptible grid. -/
def grid23 : Grid := List.replicate 2 (List.replicate 3 defaultHost)

/-- A freshly constructed 2 × 2 map with the concrete pathogen. -/
def s0C : Grid × Nat := construct pC 2 2 0

/-! ### List access lemmas -/

theorem getD_set_ne {α : Type} (l : List α) (n k : Nat) (a d : α) (h : n ≠ k) :
    (l.set n a).getD k d = l.getD k d := by
  simp [List.getD_eq_getElem?_getD, List.getElem?_set, h]

theorem getD_set_or {α : Type} (l : List α) (n k : Nat) (a d : α) :
    (l.set n a).getD k d = a ∨ (l.set n a).getD k d = l.getD k d := by
  by_cases h : n = k
  · subst h
    rw [List.getD_eq_getElem?_getD, List.getElem?_set]
    by_cases hl : n < l.length
    · simp [hl]
    · right
      rw [if_pos rfl, if_neg hl, List.getD_eq_getElem?_getD,
        List.getElem?_eq_none (by omega : l.length ≤ n)]
  · right; exact getD_set_ne l n k a d h

theorem rowGet_nil (b : Int) : rowGet [] b = defaultHost := by
  unfold rowGet
  split <;> simp

theorem getC_nil (a b : Int) : getC [] a b = defaultHost := by
  unfold getC
  split <;> simp [rowGet_nil]

theorem rowGet_cons (x : Host) (r : List Host) (b : Int) :
    rowGet (x :: r) b =
      if b = 0 then x else if 1 ≤ b then rowGet r (b - 1) else defaultHost := by
  rcases lt_trichotomy b 0 with h | h | h
  · have hb : ¬ (0 ≤ b) := by omega
    have h0 : ¬ (b = 0) := by omega
    have h1 : ¬ (1 ≤ b) := by omega
    simp [rowGet, hb, h0, h1]
  · subst h; simp [rowGet]
  · have hb : (0 : Int) ≤ b := by omega
    have h0 : ¬ (b = 0) := by omega
    have h1 : 1 ≤ b := by omega
    have hb' : (0 : Int) ≤ b - 1 := by omega
    have ht : b.toNat = (b - 1).toNat + 1 := by omega
    rw [if_neg h0, if_pos h1]
    unfold rowGet
    rw [if_pos hb, if_pos hb', ht, List.getD_cons_succ]

theorem getC_cons (r : List Host) (m : Grid) (a b : Int) :
    getC (r :: m) a b =
      if a = 0 then rowGet r b
      else if 1 ≤ a then getC m (a - 1) b else defaultHost := by
  rcases lt_trichotomy a 0 with h | h | h
  · have ha : ¬ (0 ≤ a) := by omega
    have h0 : ¬ (a = 0) := by omega
    have h1 : ¬ (1 ≤ a) := by omega
    simp [getC, ha, h0, h1]
  · subst h; simp [getC]
  · have ha : (0 : Int) ≤ a := by omega
    have h0 : ¬ (a = 0) := by omega
    have h1 : 1 ≤ a := by omega
    have ha' : (0 : Int) ≤ a - 1 := by omega
    have ht : a.toNat = (a - 1).toNat + 1 := by omega
    rw [if_neg h0, if_pos h1]
    unfold getC
    rw [if_pos ha, if_pos ha', ht, List.getD_cons_succ]

theorem getC_setC_cases (m : Grid) (i j : Int) (x : Host) (a b : Int) :
    getC (setC m i j x) a b = getC m a b ∨
      (a = i ∧ b = j ∧ getC (setC m i j x) a b = x) := by
  unfold setC
  by_cases hij : 0 ≤ i ∧ 0 ≤ j
  · rw [if_pos hij]
    unfold getC
    by_cases ha : 0 ≤ a
    · rw [if_pos ha, if_pos ha]
      by_cases hai : a.toNat = i.toNat
      · have haeq : a = i := by omega
        rcases getD_set_or m i.toNat a.toNat
            ((m.getD i.toNat []).set j.toNat x) ([] : List Host) with hrow | hrow
        · rw [hrow, hai]
          unfold rowGet
          by_cases hb : 0 ≤ b
          · rw [if_pos hb, if_pos hb]
            by_cases hbj : b.toNat = j.toNat
            · have hbeq : b = j := by omega
              rcases getD_set_or (m.getD i.toNat []) j.toNat b.toNat x defaultHost
                  with hc | hc
              · right
                exact ⟨haeq, hbeq, hc⟩
              · left
                exact hc
            · left
              exact getD_set_ne _ _ _ _ _ (fun hh => hbj hh.symm)
          · rw [if_neg hb, if_neg hb]; left; rfl
        · rw [hrow]; left; rfl
      · left
        rw [getD_set_ne _ _ _ _ _ (fun hh => hai hh.symm)]
    · rw [if_neg ha, if_neg ha]; left; rfl
  · rw [if_neg hij]; left; rfl

theorem getC_setC_ne (m : Grid) (i j : Int) (x : Host) (a b : Int)
    (h : ¬(a = i ∧ b = j)) : getC (setC m i j x) a b = getC m a b := by
  rcases getC_setC_cases m i j x a b with h' | ⟨h1, h2, _⟩
  · exact h'
  · exact absurd ⟨h1, h2⟩ h

theorem getC_setC_pres (P : Host → Prop) (m : Grid) (i j : Int) (x : Host)
    (hm : ∀ a b : Int, P (getC m a b)) (hx : P x) :
    ∀ a b : Int, P (getC (setC m i j x) a b) := by
  intro a b
  rcases getC_setC_cases m i j x a b with h | ⟨_, _, h⟩
  · rw [h]; exact hm a b
  · rw [h]; exact hx

/-! ### Shape preservation -/

theorem sameShape_refl (m : Grid) : sameShape m m := ⟨rfl, fun _ => rfl⟩

theorem sameShape_trans {m1 m2 m3 : Grid} (h1 : sameShape m1 m2)
    (h2 : sameShape m2 m3) : sameShape m1 m3 :=
  ⟨h1.1.trans h2.1, fun n => (h1.2 n).trans (h2.2 n)⟩

theorem foldl_pres {β : Type} {χ : Type} (P : β → Prop) (f : β → χ → β)
    (hf : ∀ acc x, P acc → P (f acc x)) :
    ∀ (l : List χ) (acc : β), P acc → P (l.foldl f acc) := by
  intro l
  induction l with
  | nil => intro acc h; exact h
  | cons x rest ih => intro acc h; exact ih _ (hf _ _ h)

theorem sameShape_setC (m : Grid) (i j : Int) (x : Host) :
    sameShape (setC m i j x) m := by
  unfold setC
  split
  · constructor
    · exact List.length_set m _ _
    · intro n
      by_cases hn : i.toNat = n
      · subst hn
        rcases getD_set_or m i.toNat i.toNat ((m.getD i.toNat []).set j.toNat x)
            ([] : List Host) with h | h
        · rw [h]; exact List.length_set _ _ _
        · rw [h]
      · rw [getD_set_ne m i.toNat n _ _ hn]
  · exact sameShape_refl m

theorem sameShape_exposeAt (p : Pathogen σ) (s : Grid × σ) (i j : Int) :
    sameShape (exposeAt p s i j).1 s.1 := by
  unfold exposeAt
  dsimp only
  split
  · exact sameShape_setC _ _ _ _
  · exact sameShape_refl _

theorem sameShape_computeContacts (p : Pathogen σ) (radius : Int → Nat)
    (i j : Nat) (s : Grid × σ) :
    sameShape (computeContacts p radius i j s).1 s.1 := by
  unfold computeContacts
  refine foldl_pres (fun acc => sameShape acc.1 s.1) _ ?_ _ s (sameShape_refl _)
  intro acc d hacc
  exact sameShape_trans (sameShape_exposeAt p acc _ _) hacc

theorem sameShape_stepCell (p : Pathogen σ) (radius : Int → Nat) (prev : Grid)
    (acc : Grid × σ) (ij : Nat × Nat) :
    sameShape (stepCell p radius prev acc ij).1 acc.1 := by
  unfold stepCell
  dsimp only
  split
  · dsimp only
    exact sameShape_setC _ _ _ _
  · split
    · refine sameShape_trans (sameShape_computeContacts p radius _ _ _) ?_
      dsimp only
      exact sameShape_setC _ _ _ _
    · exact sameShape_refl _

theorem sameShape_computeNext (p : Pathogen σ) (radius : Int → Nat)
    (m : Grid) (g : σ) : sameShape (computeNext p radius m g).1 m := by
  unfold computeNext
  refine foldl_pres (fun acc => sameShape acc.1 m) _ ?_ _ (m, g) (sameShape_refl _)
  intro acc ij hacc
  exact sameShape_trans (sameShape_stepCell p radius m acc ij) hacc

theorem resetRow_length (p : Pathogen σ) :
    ∀ (r : List Host) (g : σ), (resetRow p r g).1.length = r.length := by
  intro r
  induction r with
  | nil => intro g; rfl
  | cons x rest ih =>
    intro g
    rw [resetRow]
    simp [ih]

theorem sameShape_resetGrid (p : Pathogen σ) :
    ∀ (m : Grid) (g : σ), sameShape (resetGrid p m g).1 m := by
  intro m
  induction m with
  | nil => intro g; exact sameShape_refl _
  | cons row rest ih =>
    intro g
    rw [resetGrid]
    constructor
    · simpa using ((ih _).1)
    · intro n
      cases n with
      | zero => simpa using resetRow_length p row g
      | succ k => simpa using ((ih _).2 k)

theorem initRow_length (p : Pathogen σ) :
    ∀ (r : List Host) (g : σ), (initRow p r g).1.length = r.length := by
  intro r
  induction r with
  | nil => intro g; rfl
  | cons x rest ih =>
    intro g
    rw [initRow]
    simp [ih]

theorem sameShape_initGrid (p : Pathogen σ) :
    ∀ (m : Grid) (g : σ), sameShape (initGrid p m g).1 m := by
  intro m
  induction m with
  | nil => intro g; exact sameShape_refl _
  | cons row rest ih =>
    intro g
    rw [initGrid]
    constructor
    · simpa using ((ih _).1)
    · intro n
      cases n with
      | zero => simpa using initRow_length p row g
      | succ k => simpa using ((ih _).2 k)

theorem sameShape_seedDisease (p : Pathogen σ) (dunif : τ → Nat × τ) :
    ∀ (count : Nat) (m : Grid) (lg : τ) (g : σ),
      sameShape (seedDisease p dunif count m lg g).1 m := by
  intro count
  induction count with
  | zero => intro m lg g; exact sameShape_refl _
  | succ k ih =>
    intro m lg g
    rw [seedDisease]
    exact sameShape_trans (ih _ _ _) (sameShape_setC _ _ _ _)

theorem colCount_of_sameShape {m m' : Grid} (h : sameShape m m') :
    colCount m = colCount m' := h.2 0

theorem isRect_of_sameShape {m m' : Grid} (h : sameShape m' m)
    (hr : IsRect m) : IsRect m' := by
  intro row hrow
  obtain ⟨n, hn, hrn⟩ := List.mem_iff_getElem.mp hrow
  have hlen : n < m.length := by rw [← h.1]; exact hn
  have h1 : (m'.getD n []).length = (m.getD n []).length := h.2 n
  rw [List.getD_eq_getElem (m') ([]) hn, hrn] at h1
  have h2 : m.getD n [] ∈ m := by
    rw [List.getD_eq_getElem m ([]) hlen]
    exact List.getElem_mem hlen
  rw [h1, hr _ h2, colCount_of_sameShape h]

/-! ### Stage transition lemmas -/

theorem worsen_stage (p : Pathogen σ) (c : Host) (g : σ) :
    (worsen p c g).1.stage = c.stage ∨
    ((worsen p c g).1.stage = c.stage + 1 ∧ c.stage + 1 ≠ 3) ∨
    (c.stage = 2 ∧ ((worsen p c g).1.stage = 4 ∨ (worsen p c g).1.stage = 5)) := by
  unfold worsen
  dsimp only
  split
  · by_cases hrc : c.stage + 1 = 3
    · have hc2 : c.stage = 2 := by omega
      rw [if_pos (by simp [hasRunCourseB, hrc])]
      unfold expire willDie kill recover
      dsimp only
      split
      · right; right; exact ⟨hc2, Or.inr rfl⟩
      · right; right; exact ⟨hc2, Or.inl rfl⟩
    · rw [if_neg (by simp [hasRunCourseB, hrc])]
      right; left; exact ⟨rfl, hrc⟩
  · left; rfl

theorem expose_stage (p : Pathogen σ) (x : Host) (g : σ) :
    (expose p x g).1.stage = x.stage ∨ (expose p x g).1.stage = 1 := by
  unfold expose infect incubationPeriod willCatch
  dsimp only
  split
  · right; rfl
  · left; rfl

theorem fwdS_refl (a : Int) : fwdS a a := Or.inl rfl

theorem fwdS_worsen (p : Pathogen σ) (c : Host) (g : σ)
    (hst : c.stage = 1 ∨ c.stage = 2) :
    fwdS c.stage (worsen p c g).1.stage := by
  rcases worsen_stage p c g with h | ⟨h, hne⟩ | ⟨h2, h45⟩ <;> unfold fwdS <;> omega

theorem fwdS_absorb {a b : Int} (ha : a = 4 ∨ a = 5) (h : fwdS a b) : b = a := by
  unfold fwdS at h; omega

theorem fwdS_ok {a b : Int} (ha : okStage a) (h : fwdS a b) : okStage b := by
  unfold okStage at ha ⊢; unfold fwdS at h; omega

/-! ### The forward-step invariant through one grid scan -/

theorem stepInv_exposeAt (p : Pathogen σ) (prev : Grid)
    (todo : List (Nat × Nat)) (s : Grid × σ) (i j : Int)
    (h : StepInv prev s.1 todo) : StepInv prev (exposeAt p s i j).1 todo := by
  unfold exposeAt
  dsimp only
  generalize wrapIdx i (rowCount s.1 : Int) = a
  generalize wrapIdx j (colCount s.1 : Int) = b
  split
  · next hsus =>
    have hst : (getC s.1 a b).stage = 0 := by simpa [isSusceptibleB] using hsus
    dsimp only
    constructor
    · intro u v
      rcases getC_setC_cases s.1 a b (expose p (getC s.1 a b) s.2).1 u v with
        he | ⟨hu, hv, he⟩
      · rw [he]; exact h.1 u v
      · subst hu; subst hv
        rw [he]
        have hf := h.1 u v
        rcases expose_stage p (getC s.1 u v) s.2 with h1 | h1 <;> rw [h1]
        · exact hf
        · rw [hst] at hf
          unfold fwdS at hf ⊢
          omega
    · intro q hq hpq
      rcases getC_setC_cases s.1 a b (expose p (getC s.1 a b) s.2).1
          (q.1 : Int) (q.2 : Int) with he | ⟨hu, hv, he⟩
      · rw [he]; exact h.2 q hq hpq
      · exfalso
        have hcur := h.2 q hq hpq
        rw [hu, hv] at hcur hpq
        rw [hcur] at hst
        omega
  · exact h

theorem stepInv_exposeFold (p : Pathogen σ) (prev : Grid)
    (todo : List (Nat × Nat)) (i j : Nat) :
    ∀ (l : List (Int × Int)) (s : Grid × σ), StepInv prev s.1 todo →
      StepInv prev
        (l.foldl (fun acc d => exposeAt p acc ((i : Int) + d.1) ((j : Int) + d.2)) s).1
        todo := by
  intro l
  induction l with
  | nil => intro s h; exact h
  | cons d rest ih =>
    intro s h
    rw [List.foldl_cons]
    exact ih _ (stepInv_exposeAt p prev todo s _ _ h)

theorem stepInv_computeContacts (p : Pathogen σ) (radius : Int → Nat)
    (prev : Grid) (todo : List (Nat × Nat)) (i j : Nat) (s : Grid × σ)
    (h : StepInv prev s.1 todo) :
    StepInv prev (computeContacts p radius i j s).1 todo := by
  unfold computeContacts
  dsimp only
  exact stepInv_exposeFold p prev todo i j
    (offPairs (radius (getC s.1 (i : Int) (j : Int)).contacts)) s h

theorem stepInv_write (p : Pathogen σ) (prev : Grid) (q : Nat × Nat)
    (tail : List (Nat × Nat)) (acc : Grid × σ) (hq : q ∉ tail)
    (h : StepInv prev acc.1 (q :: tail))
    (hpq : (getC prev (q.1 : Int) (q.2 : Int)).stage = 1 ∨
           (getC prev (q.1 : Int) (q.2 : Int)).stage = 2) :
    StepInv prev
      (setC acc.1 (q.1 : Int) (q.2 : Int)
        (worsen p (getC acc.1 (q.1 : Int) (q.2 : Int)) acc.2).1) tail := by
  have hcur : (getC acc.1 (q.1 : Int) (q.2 : Int)).stage =
      (getC prev (q.1 : Int) (q.2 : Int)).stage :=
    h.2 q (List.mem_cons_self _ _) hpq
  constructor
  · intro u v
    rcases getC_setC_cases acc.1 (q.1 : Int) (q.2 : Int)
        (worsen p (getC acc.1 (q.1 : Int) (q.2 : Int)) acc.2).1 u v with
      he | ⟨hu, hv, he⟩
    · rw [he]; exact h.1 u v
    · subst hu; subst hv
      rw [he, ← hcur]
      exact fwdS_worsen p _ acc.2 (by rw [hcur]; exact hpq)
  · intro q' hq' hpq'
    have hne : ¬((q'.1 : Int) = (q.1 : Int) ∧ (q'.2 : Int) = (q.2 : Int)) := by
      rintro ⟨h1, h2⟩
      apply hq
      have e1 : q'.1 = q.1 := by exact_mod_cast h1
      have e2 : q'.2 = q.2 := by exact_mod_cast h2
      have heq : q' = q := Prod.ext e1 e2
      rw [← heq]
      exact hq'
    rw [getC_setC_ne _ _ _ _ _ _ hne]
    exact h.2 q' (List.mem_cons_of_mem _ hq') hpq'

theorem stepInv_stepCell (p : Pathogen σ) (radius : Int → Nat) (prev : Grid)
    (q : Nat × Nat) (tail : List (Nat × Nat)) (acc : Grid × σ)
    (hq : q ∉ tail) (h : StepInv prev acc.1 (q :: tail)) :
    StepInv prev (stepCell p radius prev acc q).1 tail := by
  have hsub : StepInv prev acc.1 tail :=
    ⟨h.1, fun q' hq' => h.2 q' (List.mem_cons_of_mem _ hq')⟩
  unfold stepCell
  dsimp only
  split
  · next hexp =>
    have hpe : (getC prev (q.1 : Int) (q.2 : Int)).stage = 1 := by
      simpa [isExposedB] using hexp
    dsimp only
    exact stepInv_write p prev q tail acc hq h (Or.inl hpe)
  · split
    · next hinf =>
      have hpi : (getC prev (q.1 : Int) (q.2 : Int)).stage = 2 := by
        simpa [isInfectiousB] using hinf
      refine stepInv_computeContacts p radius prev tail q.1 q.2 _ ?_
      dsimp only
      exact stepInv_write p prev q tail acc hq h (Or.inr hpi)
    · exact hsub

theorem stepInv_foldl (p : Pathogen σ) (radius : Int → Nat) (prev : Grid) :
    ∀ (todo : List (Nat × Nat)) (acc : Grid × σ), todo.Nodup →
      StepInv prev acc.1 todo →
      StepInv prev (todo.foldl (stepCell p radius prev) acc).1 [] := by
  intro todo
  induction todo with
  | nil => intro acc _ h; exact ⟨h.1, fun q hq => absurd hq (List.not_mem_nil q)⟩
  | cons q tail ih =>
    intro acc hnd h
    rw [List.foldl_cons]
    have hnd' := List.nodup_cons.mp hnd
    exact ih _ hnd'.2 (stepInv_stepCell p radius prev q tail acc hnd'.1 h)

theorem idxList_nodup (n m : Nat) : (idxList n m).Nodup := by
  unfold idxList
  rw [List.nodup_flatMap]
  constructor
  · intro i _
    refine List.Nodup.map ?_ (List.nodup_range m)
    intro x y hxy
    simpa using hxy
  · refine (List.pairwise_lt_range n).imp ?_
    intro a b hab
    intro x hx1 hx2
    simp only [List.mem_map, List.mem_range] at hx1 hx2
    obtain ⟨j1, _, he1⟩ := hx1
    obtain ⟨j2, _, he2⟩ := hx2
    have ha : x.1 = a := by rw [← he1]
    have hb : x.1 = b := by rw [← he2]
    omega

theorem computeNext_fwd (p : Pathogen σ) (radius : Int → Nat) (m : Grid) (g : σ)
    (a b : Int) :
    fwdS (getC m a b).stage (getC (computeNext p radius m g).1 a b).stage := by
  unfold computeNext
  have h := stepInv_foldl p radius m (idxList (rowCount m) (colCount m)) (m, g)
    (idxList_nodup _ _) ⟨fun u v => fwdS_refl _, fun q _ _ => rfl⟩
  exact h.1 a b

theorem advanceN_absorb (p : Pathogen σ) (radius : Int → Nat) (n : Nat) :
    ∀ (s : Grid × σ) (a b : Int),
      ((getC s.1 a b).stage = 4 ∨ (getC s.1 a b).stage = 5) →
      (getC (advanceN p radius n s).1 a b).stage = (getC s.1 a b).stage := by
  induction n with
  | zero => intro s a b _; rfl
  | succ k ih =>
    intro s a b h45
    have hstep := computeNext_fwd p radius s.1 s.2 a b
    have heq : (getC (computeNext p radius s.1 s.2).1 a b).stage =
        (getC s.1 a b).stage := fwdS_absorb h45 hstep
    rw [advanceN]
    rw [ih (computeNext p radius s.1 s.2) a b (by rw [heq]; exact h45), heq]

/-! ### Invariants of construction, reset and seeding -/

theorem resetRow_stage (p : Pathogen σ) :
    ∀ (r : List Host) (g : σ) (b : Int),
      (rowGet (resetRow p r g).1 b).stage = 0 ∧
      (rowGet (resetRow p r g).1 b).days = 0 := by
  intro r
  induction r with
  | nil => intro g b; rw [resetRow, rowGet_nil]; exact ⟨rfl, rfl⟩
  | cons x rest ih =>
    intro g b
    rw [resetRow]
    dsimp only
    rw [rowGet_cons]
    split
    · exact ⟨rfl, rfl⟩
    · split
      · exact ih _ (b - 1)
      · exact ⟨rfl, rfl⟩

theorem resetGrid_stage (p : Pathogen σ) :
    ∀ (m : Grid) (g : σ) (a b : Int),
      (getC (resetGrid p m g).1 a b).stage = 0 ∧
      (getC (resetGrid p m g).1 a b).days = 0 := by
  intro m
  induction m with
  | nil => intro g a b; rw [resetGrid, getC_nil]; exact ⟨rfl, rfl⟩
  | cons row rest ih =>
    intro g a b
    rw [resetGrid]
    dsimp only
    rw [getC_cons]
    split
    · exact resetRow_stage p row g b
    · split
      · exact ih _ (a - 1) b
      · exact ⟨rfl, rfl⟩

theorem initRow_stage (p : Pathogen σ) :
    ∀ (r : List Host) (g : σ) (b : Int),
      (rowGet (initRow p r g).1 b).stage = (rowGet r b).stage ∧
      (rowGet (initRow p r g).1 b).days = (rowGet r b).days := by
  intro r
  induction r with
  | nil => intro g b; rw [initRow]; exact ⟨rfl, rfl⟩
  | cons x rest ih =>
    intro g b
    rw [initRow]
    dsimp only
    rw [rowGet_cons, rowGet_cons]
    split
    · exact ⟨rfl, rfl⟩
    · split
      · exact ih _ (b - 1)
      · exact ⟨rfl, rfl⟩

theorem initGrid_stage (p : Pathogen σ) :
    ∀ (m : Grid) (g : σ) (a b : Int),
      (getC (initGrid p m g).1 a b).stage = (getC m a b).stage ∧
      (getC (initGrid p m g).1 a b).days = (getC m a b).days := by
  intro m
  induction m with
  | nil => intro g a b; rw [initGrid]; exact ⟨rfl, rfl⟩
  | cons row rest ih =>
    intro g a b
    rw [initGrid]
    dsimp only
    rw [getC_cons, getC_cons]
    split
    · exact initRow_stage p row g b
    · split
      · exact ih _ (a - 1) b
      · exact ⟨rfl, rfl⟩

theorem getC_replicate_default (r c : Nat) (a b : Int) :
    getC (List.replicate r (List.replicate c defaultHost)) a b = defaultHost := by
  unfold getC rowGet
  have h1 : (List.replicate r (List.replicate c defaultHost)).getD a.toNat [] =
      List.replicate c defaultHost ∨
      (List.replicate r (List.replicate c defaultHost)).getD a.toNat [] = [] := by
    rw [List.getD_eq_getElem?_getD, List.getElem?_replicate]
    split
    · left; rfl
    · right; rfl
  have h2 : (List.replicate c defaultHost).getD b.toNat defaultHost = defaultHost := by
    rw [List.getD_eq_getElem?_getD, List.getElem?_replicate]
    split
    · rfl
    · rfl
  rcases h1 with h1 | h1 <;> rw [h1]
  · rw [h2]
    simp
  · simp

theorem construct_stage (p : Pathogen σ) (r c : Nat) (g : σ) (a b : Int) :
    (getC (construct p r c g).1 a b).stage = 0 ∧
    (getC (construct p r c g).1 a b).days = 0 := by
  unfold construct
  have h := initGrid_stage p (List.replicate r (List.replicate c defaultHost)) g a b
  rw [getC_replicate_default] at h
  exact h

theorem seedDisease_ok (p : Pathogen σ) (dunif : τ → Nat × τ) :
    ∀ (count : Nat) (m : Grid) (lg : τ) (g : σ),
      (∀ a b : Int, okStage (getC m a b).stage) →
      ∀ a b : Int, okStage (getC (seedDisease p dunif count m lg g).1 a b).stage := by
  intro count
  induction count with
  | zero => intro m lg g hm; exact hm
  | succ k ih =>
    intro m lg g hm
    rw [seedDisease]
    apply ih
    apply getC_setC_pres (fun h => okStage h.stage) _ _ _ _ hm
    exact Or.inr (Or.inl rfl)

theorem isRect_replicate (r c : Nat) :
    IsRect (List.replicate r (List.replicate c defaultHost)) := by
  intro row hrow
  have h := List.eq_of_mem_replicate hrow
  subst h
  rw [List.length_replicate]
  unfold colCount
  rw [List.getD_eq_getElem?_getD, List.getElem?_replicate]
  have hr : 0 < r := by
    have := List.length_pos_of_mem hrow
    rwa [List.length_replicate] at this
  rw [if_pos hr]
  simp

/-! ### Invariants of all reachable states -/

theorem reachable_okStage (p : Pathogen σ) (radius : Int → Nat) (s : Grid × σ)
    (h : Reachable p radius s) : ∀ a b : Int, okStage (getC s.1 a b).stage := by
  induction h with
  | init r c g =>
    intro a b
    rw [(construct_stage p r c g a b).1]
    left; rfl
  | reset s hs ih =>
    intro a b
    rw [(resetGrid_stage p s.1 s.2 a b).1]
    left; rfl
  | seed s τ dunif lg count hs ih =>
    exact seedDisease_ok p dunif count s.1 lg s.2 ih
  | advance s hs ih =>
    intro a b
    exact fwdS_ok (ih a b) (computeNext_fwd p radius s.1 s.2 a b)

theorem reachable_rect (p : Pathogen σ) (radius : Int → Nat) (s : Grid × σ)
    (h : Reachable p radius s) : IsRect s.1 := by
  induction h with
  | init r c g =>
    exact isRect_of_sameShape (sameShape_initGrid p _ g) (isRect_replicate r c)
  | reset s hs ih =>
    exact isRect_of_sameShape (sameShape_resetGrid p s.1 s.2) ih
  | seed s τ dunif lg count hs ih =>
    exact isRect_of_sameShape (sameShape_seedDisease p dunif count s.1 lg s.2) ih
  | advance s hs ih =>
    exact isRect_of_sameShape (sameShape_computeNext p radius s.1 s.2) ih

/-! ### Counting and population conservation -/

theorem forall_mem_of_getC (P : Host → Prop) (m : Grid)
    (h : ∀ a b : Int, P (getC m a b)) : ∀ row ∈ m, ∀ x ∈ row, P x := by
  intro row hrow x hx
  obtain ⟨n, hn, hrn⟩ := List.mem_iff_getElem.mp hrow
  obtain ⟨k, hk, hxk⟩ := List.mem_iff_getElem.mp hx
  have hg := h (n : Int) (k : Int)
  unfold getC rowGet at hg
  rw [if_pos (by omega : (0 : Int) ≤ (n : Int)),
    if_pos (by omega : (0 : Int) ≤ (k : Int)), Int.toNat_ofNat, Int.toNat_ofNat,
    List.getD_eq_getElem m ([]) hn, hrn, List.getD_eq_getElem row defaultHost hk,
    hxk] at hg
  exact hg

theorem row_partition (row : List Host)
    (h : ∀ x ∈ row, okStage x.stage) :
    row.countP isSusceptibleB +
      row.countP (fun h => isExposedB h || isInfectiousB h) +
      row.countP isRecoveredB + row.countP isDeceasedB = row.length := by
  induction row with
  | nil => rfl
  | cons x rest ih =>
    have hx := h x (List.mem_cons_self _ _)
    have hrest := ih (fun y hy => h y (List.mem_cons_of_mem _ hy))
    simp only [List.countP_cons, List.length_cons]
    rcases hx with hx | hx | hx | hx | hx <;>
      simp [isSusceptibleB, isExposedB, isInfectiousB, isRecoveredB, isDeceasedB,
        hx] at hrest ⊢ <;>
      omega

theorem grid_partition (c : Nat) :
    ∀ (m : Grid), (∀ row ∈ m, row.length = c) →
      (∀ row ∈ m, ∀ x ∈ row, okStage x.stage) →
      countSusceptible m + countInfected m + countRecovered m + countDeceased m
        = m.length * c := by
  intro m
  induction m with
  | nil =>
    intro _ _
    simp [countSusceptible, countInfected, countRecovered, countDeceased, countCells]
  | cons row rest ih =>
    intro hlen hok
    have h1 := row_partition row (hok row (List.mem_cons_self _ _))
    have h2 := ih (fun r hr => hlen r (List.mem_cons_of_mem _ hr))
      (fun r hr => hok r (List.mem_cons_of_mem _ hr))
    have h3 := hlen row (List.mem_cons_self _ _)
    unfold countSusceptible countInfected countRecovered countDeceased countCells
      at h2 ⊢
    simp only [List.map_cons, List.sum_cons, List.length_cons]
    rw [Nat.succ_mul]
    omega

/-! ### The driver loop -/

theorem runAux_spec (p : Pathogen σ) (radius : Int → Nat) (T : Nat) :
    ∀ (fuel t c : Nat) (s : Grid × σ), T - t ≤ fuel → c = t → t ≤ T →
      (runAux p radius T s t c).2.2 ≤ T ∧
      (countInfected (runAux p radius T s t c).1.1 = 0 →
        (runAux p radius T s t c).2.1 = (runAux p radius T s t c).2.2) ∧
      (countInfected (runAux p radius T s t c).1.1 ≠ 0 →
        (runAux p radius T s t c).2.1 = (runAux p radius T s t c).2.2 + 1 ∧
        (runAux p radius T s t c).2.2 = T) := by
  intro fuel
  induction fuel with
  | zero =>
    intro t c s hf hc ht
    have htT : t = T := by omega
    by_cases hci : countInfected s.1 > 0
    · rw [runAux, if_pos hci, dif_neg (by omega : ¬ t < T)]
      dsimp only
      refine ⟨by omega, ?_, ?_⟩
      · intro h0
        exact absurd h0 (by omega)
      · intro _
        exact ⟨by omega, by omega⟩
    · rw [runAux, if_neg hci]
      dsimp only
      refine ⟨by omega, fun _ => by omega, ?_⟩
      intro hne
      exact absurd (by omega : countInfected s.1 = 0) hne
  | succ k ih =>
    intro t c s hf hc ht
    by_cases hci : countInfected s.1 > 0
    · by_cases hlt : t < T
      · rw [runAux, if_pos hci, dif_pos hlt]
        exact ih (t + 1) (c + 1) _ (by omega) (by omega) (by omega)
      · rw [runAux, if_pos hci, dif_neg hlt]
        dsimp only
        refine ⟨by omega, ?_, ?_⟩
        · intro h0
          exact absurd h0 (by omega)
        · intro _
          exact ⟨by omega, by omega⟩
    · rw [runAux, if_neg hci]
      dsimp only
      refine ⟨by omega, fun _ => by omega, ?_⟩
      intro hne
      exact absurd (by omega : countInfected s.1 = 0) hne

/-! ### The seeding index arithmetic -/

theorem seedIdx_bounds_iff (m : Grid) (R C : Nat) (hR : m.length = R)
    (hC : colCount m = C) (h1 : 1 ≤ R) (h2 : 1 ≤ C) :
    (∀ k, k < R * C → seedRowIdx m k < R ∧ seedColIdx m k < C) ↔ R = C := by
  unfold seedRowIdx seedColIdx
  rw [hR]
  constructor
  · intro hall
    rcases Nat.lt_trichotomy R C with h | h | h
    · exfalso
      have hk : R * (C - 1) + (R - 1) < R * C := by
        have : R * C = R * (C - 1) + R := by
          rw [← Nat.mul_succ]
          congr 1
          omega
        omega
      have := (hall (R * (C - 1) + (R - 1)) hk).1
      rw [Nat.mul_add_div (by omega), Nat.div_eq_of_lt (by omega),
        Nat.add_zero] at this
      omega
    · exact h
    · exfalso
      have hk : C < R * C := by
        have h2C : 2 * C ≤ R * C := Nat.mul_le_mul_right C (by omega : 2 ≤ R)
        omega
      have := (hall C hk).2
      rw [Nat.mod_eq_of_lt h] at this
      omega
  · intro hRC
    subst hRC
    intro k hk
    constructor
    · exact Nat.div_lt_iff_lt_mul (by omega) |>.mpr hk
    · have := Nat.mod_lt k (show 0 < R by omega)
      omega

theorem seedIdx_injective (m : Grid) (R : Nat) (hR : m.length = R)
    (h1 : 1 ≤ R) :
    ∀ k1 k2, k1 < R * R → k2 < R * R →
      seedRowIdx m k1 = seedRowIdx m k2 → seedColIdx m k1 = seedColIdx m k2 →
      k1 = k2 := by
  unfold seedRowIdx seedColIdx
  rw [hR]
  intro k1 k2 _ _ hdiv hmod
  have e1 := Nat.div_add_mod k1 R
  have e2 := Nat.div_add_mod k2 R
  calc k1 = R * (k1 / R) + k1 % R := e1.symm
  _ = R * (k2 / R) + k2 % R := by rw [hdiv, hmod]
  _ = k2 := e2

/-! ### Reset depends only on the grid shape -/

theorem resetRow_shape_only (p : Pathogen σ) :
    ∀ (r r' : List Host) (g : σ), r.length = r'.length →
      resetRow p r g = resetRow p r' g := by
  intro r
  induction r with
  | nil =>
    intro r' g hl
    cases r' with
    | nil => rfl
    | cons y rest' => simp at hl
  | cons x rest ih =>
    intro r' g hl
    cases r' with
    | nil => simp at hl
    | cons y rest' =>
      rw [resetRow, resetRow]
      have he := ih rest' (numNeighbors p g).2 (by simpa using hl)
      simp [he]

theorem resetGrid_shape_only (p : Pathogen σ) :
    ∀ (m m' : Grid) (g : σ), sameShape m m' →
      resetGrid p m g = resetGrid p m' g := by
  intro m
  induction m with
  | nil =>
    intro m' g hs
    cases m' with
    | nil => rfl
    | cons r rest => simp [sameShape] at hs
  | cons row rest ih =>
    intro m' g hs
    cases m' with
    | nil => simp [sameShape] at hs
    | cons row' rest' =>
      have hrow : row.length = row'.length := by
        have := hs.2 0
        simpa using this
      have hrest : sameShape rest rest' := by
        constructor
        · have := hs.1
          simpa using this
        · intro n
          have := hs.2 (n + 1)
          simpa using this
      rw [resetGrid, resetGrid, resetRow_shape_only p row row' g hrow,
        ih rest' _ hrest]

/-! ### Claim theorems -/

/-- C1: Single-step transition semantics of advance (computeNext).  For a
cell whose stage yesterday was Exposed, `worsen` decrements the days
remaining and, exactly when the decremented value is 0, sets the stage to
Infectious with the days redrawn as `infectiousPeriod()`; for a cell whose
stage yesterday was Infectious, `worsen` decrements the days remaining
and, exactly when the decremented value is 0, advances the stage through
the transient Resolved stage and immediately resolves it by one death
draw, Deceased if the draw succeeds and Recovered otherwise. -/
theorem worsen_step_semantics (p : Pathogen σ) (h : Host) (g : σ) :
    (isExposedB h = true →
      worsen p h g =
        if h.days - 1 = 0
        then (⟨2, p.minI + ((p.idist g).1 : Int), h.contacts⟩, (p.idist g).2)
        else (⟨1, h.days - 1, h.contacts⟩, g)) ∧
    (isInfectiousB h = true →
      worsen p h g =
        if h.days - 1 = 0
        then (⟨if (p.pdie g).1 then 5 else 4, 0, h.contacts⟩, (p.pdie g).2)
        else (⟨2, h.days - 1, h.contacts⟩, g)) := by
  constructor
  · intro he
    have h1 : h.stage = 1 := by simpa [isExposedB] using he
    unfold worsen hasRunCourseB infectionPeriod expire
    by_cases hd : h.days - 1 = 0
    · simp [hd, h1]
    · simp [hd, h1]
  · intro hi
    have h2 : h.stage = 2 := by simpa [isInfectiousB] using hi
    unfold worsen hasRunCourseB infectionPeriod expire willDie kill recover
    by_cases hd : h.days - 1 = 0
    · by_cases hdie : (p.pdie g).1
      · simp [hd, h2, hdie]
      · simp [hd, h2, hdie]
    · simp [hd, h2]

/-- Witness for C1 at a concrete exposed and a concrete infectious host. -/
theorem worsen_step_semantics_witness :
    worsen pC ⟨1, 1, 7⟩ 0 =
      (if (1 : Int) - 1 = 0
       then (⟨2, pC.minI + ((pC.idist 0).1 : Int), (7 : Int)⟩, (pC.idist 0).2)
       else (⟨1, (1 : Int) - 1, 7⟩, 0)) ∧
    worsen pC ⟨2, 1, 7⟩ 0 =
      (if (1 : Int) - 1 = 0
       then (⟨if (pC.pdie 0).1 then 5 else 4, 0, (7 : Int)⟩, (pC.pdie 0).2)
       else (⟨2, (1 : Int) - 1, 7⟩, 0)) :=
  ⟨(worsen_step_semantics pC ⟨1, 1, 7⟩ 0).1 (by decide),
   (worsen_step_semantics pC ⟨2, 1, 7⟩ 0).2 (by decide)⟩

/-- C2: Stage monotonicity and absorption.  In every state reachable by
construction, seeding, reset and advance, every cell's stage is one of
the five observable stages; one advance moves each cell's stage forward
along Susceptible → Exposed → Infectious → (Resolved →) Recovered or
Deceased without skipping or reversing; and a Recovered or Deceased cell
keeps its stage under any further number of advances. -/
theorem reachable_stage_monotone (p : Pathogen σ) (radius : Int → Nat)
    (s : Grid × σ) (hs : Reachable p radius s) (a b : Int) (n : Nat) :
    okStage (getC s.1 a b).stage ∧
    fwdS (getC s.1 a b).stage (getC (computeNext p radius s.1 s.2).1 a b).stage ∧
    ((getC s.1 a b).stage = 4 ∨ (getC s.1 a b).stage = 5 →
      (getC (advanceN p radius n s).1 a b).stage = (getC s.1 a b).stage) :=
  ⟨reachable_okStage p radius s hs a b,
   computeNext_fwd p radius s.1 s.2 a b,
   fun h45 => advanceN_absorb p radius n s a b h45⟩

/-- Witness for C2 at a freshly constructed 2 × 2 map. -/
theorem reachable_stage_monotone_witness :
    okStage (getC s0C.1 0 0).stage ∧
    fwdS (getC s0C.1 0 0).stage (getC (computeNext pC radiusC s0C.1 s0C.2).1 0 0).stage ∧
    ((getC s0C.1 0 0).stage = 4 ∨ (getC s0C.1 0 0).stage = 5 →
      (getC (advanceN pC radiusC 2 s0C).1 0 0).stage = (getC s0C.1 0 0).stage) :=
  reachable_stage_monotone pC radiusC s0C (Reachable.init 2 2 0) 0 0 2

/-- C3: Population conservation.  In every reachable state the cells
counted by countInfected (Exposed plus Infectious) plus countRecovered
plus countDeceased plus the number of Susceptible cells equal
rows times cols, and no cell is ever observed in the transient Resolved
stage between steps. -/
theorem reachable_population_conservation (p : Pathogen σ) (radius : Int → Nat)
    (s : Grid × σ) (hs : Reachable p radius s) :
    countInfected s.1 + countRecovered s.1 + countDeceased s.1 +
      countSusceptible s.1 = rowCount s.1 * colCount s.1 ∧
    ∀ a b : Int, hasRunCourseB (getC s.1 a b) = false := by
  constructor
  · have hok := reachable_okStage p radius s hs
    have hrect := reachable_rect p radius s hs
    have hpart := grid_partition (colCount s.1) s.1 hrect
      (forall_mem_of_getC (fun x => okStage x.stage) s.1 hok)
    unfold rowCount
    omega
  · intro a b
    have h := reachable_okStage p radius s hs a b
    unfold okStage at h
    simp only [hasRunCourseB, beq_eq_false_iff_ne, ne_eq]
    omega

/-- Witness for C3 at a freshly constructed 2 × 2 map. -/
theorem reachable_population_conservation_witness :
    countInfected s0C.1 + countRecovered s0C.1 + countDeceased s0C.1 +
      countSusceptible s0C.1 = rowCount s0C.1 * colCount s0C.1 ∧
    ∀ a b : Int, hasRunCourseB (getC s0C.1 a b) = false :=
  reachable_population_conservation pC radiusC s0C (Reachable.init 2 2 0)

/-- C4: Toroidal wrap.  The corner case holds: from corner `(0,0)` with
half-width 1 on a 2 × 3 grid the wrap resolves offsets `-1` to the last
row and last column.  But the resolution is not total: the single
correction wrap of `getNeighbor` sends offset `0 - 3` on a 2-row axis to
`-1`, an out-of-range index (an out-of-bounds vector access in the C++),
instead of the claimed non-negative remainder `(-3) mod 2 = 1`. -/
theorem wrap_corner_ok_large_radius_out_of_range :
    wrapIdx (0 - 1) 2 = 2 - 1 ∧ wrapIdx (0 - 1) 3 = 3 - 1 ∧
    wrapIdx (0 + 1) 2 = 1 ∧
    wrapIdx (0 - 3) 2 = -1 ∧ ¬ (0 ≤ wrapIdx (0 - 3) 2 ∧ wrapIdx (0 - 3) 2 < 2) ∧
    Int.emod (0 - 3) 2 = 1 ∧ wrapIdx (0 - 3) 2 ≠ Int.emod (0 - 3) 2 := by
  decide

/-- C5 counterexample: with one exposed host and a day budget of 0 the
console loop `while (countInfected() > 0 && t++ < T)` performs no
computeNext call but reports `t = 1`, which differs from the 0 calls
performed and exceeds the budget `maxDays = 0`. -/
theorem runSim_report_mismatch :
    countInfected (runSim pC radiusC 0 (gridOneInf, 0)).1.1 > 0 ∧
    (runSim pC radiusC 0 (gridOneInf, 0)).2.1 = 1 ∧
    (runSim pC radiusC 0 (gridOneInf, 0)).2.2 = 0 ∧
    (runSim pC radiusC 0 (gridOneInf, 0)).2.1 ≠
      (runSim pC radiusC 0 (gridOneInf, 0)).2.2 ∧
    (runSim pC radiusC 0 (gridOneInf, 0)).2.1 > 0 := by
  have h : runSim pC radiusC 0 (gridOneInf, 0) = ((gridOneInf, 0), 1, 0) := by
    unfold runSim
    rw [runAux]
    norm_num
    decide
  rw [h]
  decide

/-- C5 (amended): the driver loop advances only while infections remain
and the day counter is below the budget; the number of computeNext calls
never exceeds maxDays; on burn-out termination the reported day count
equals the number of calls, but on budget exhaustion the reported count
is one more than the maxDays calls performed. -/
theorem runSim_day_count (p : Pathogen σ) (radius : Int → Nat) (T : Nat)
    (s : Grid × σ) :
    (runSim p radius T s).2.2 ≤ T ∧
    (countInfected (runSim p radius T s).1.1 = 0 →
      (runSim p radius T s).2.1 = (runSim p radius T s).2.2) ∧
    (countInfected (runSim p radius T s).1.1 ≠ 0 →
      (runSim p radius T s).2.1 = (runSim p radius T s).2.2 + 1 ∧
      (runSim p radius T s).2.2 = T) := by
  unfold runSim
  exact runAux_spec p radius T T 0 0 s (by omega) rfl (by omega)

/-- C6: Seeding reproducibility.  With the shared and the local generator
states given explicitly, seedDisease is a deterministic function of the
grid, the count, and the two generator states: two runs on equal inputs
produce the identical grid (the same cells marked Exposed with the same
incubation draws) and the identical final generator states. -/
theorem seedDisease_reproducible (p : Pathogen σ) (dunif : τ → Nat × τ)
    (count : Nat) (m1 m2 : Grid) (l1 l2 : τ) (g1 g2 : σ)
    (hm : m1 = m2) (hl : l1 = l2) (hg : g1 = g2) :
    seedDisease p dunif count m1 l1 g1 = seedDisease p dunif count m2 l2 g2 := by
  subst hm
  subst hl
  subst hg
  rfl

/-- Witness for C6: a 10 × 10 grid seeded with count 3. -/
theorem seedDisease_reproducible_witness :
    seedDisease pC dC 3 gridTen 0 0 = seedDisease pC dC 3 gridTen 0 0 :=
  seedDisease_reproducible pC dC 3 gridTen gridTen 0 0 0 0 rfl rfl rfl

/-- C7: Aggregate queries are pure observers: countInfected,
countRecovered and countDeceased leave the grid and the generator state
unchanged, repeated and interleaved calls return equal values, and a
subsequent computeNext behaves exactly as if the queries had not run. -/
theorem counting_queries_pure (p : Pathogen σ) (radius : Int → Nat)
    (s : Grid × σ) :
    (countInfectedOp s).2 = s ∧ (countRecoveredOp s).2 = s ∧
    (countDeceasedOp s).2 = s ∧
    (countInfectedOp ((countRecoveredOp ((countDeceasedOp s).2)).2)).1 =
      (countInfectedOp s).1 ∧
    computeNext p radius ((countInfectedOp s).2).1 ((countInfectedOp s).2).2 =
      computeNext p radius s.1 s.2 :=
  ⟨rfl, rfl, rfl, rfl, rfl⟩

/-- C8: evaluation of the rendering at the failing input.  The summary
line has exactly the claimed format, and print emits 's', 'e', ' ' and
'R' as claimed, but an Infectious cell (stage 2) is rendered as '!'
rather than the claimed 'I': the isInfectious test is nested inside the
isExposed branch (stage = 1), which is false at stage 2, so the 'I'
branch is unreachable. -/
theorem print_chars_eval :
    cellChar ⟨0, 0, 1⟩ = 's' ∧ cellChar ⟨1, 3, 1⟩ = 'e' ∧
    cellChar ⟨2, 5, 1⟩ = '!' ∧ cellChar ⟨2, 5, 1⟩ ≠ 'I' ∧
    cellChar ⟨5, 0, 1⟩ = ' ' ∧ cellChar ⟨4, 0, 1⟩ = 'R' ∧
    summaryLine [[⟨5, 0, 0⟩, ⟨4, 0, 0⟩, ⟨2, 3, 0⟩]] =
      "1 died, 1 recovered, 1 still infected." := by
  decide

/-- C9 counterexample: on a 1 × 1 grid with the concrete step-counter
generator, resetting twice yields a different grid than resetting once,
because the second reset redraws the contact count from the advanced
generator state. -/
theorem reset_twice_differs :
    (resetGrid pC (resetGrid pC [[⟨0, 0, 0⟩]] 0).1
        (resetGrid pC [[⟨0, 0, 0⟩]] 0).2).1 ≠
      (resetGrid pC [[⟨0, 0, 0⟩]] 0).1 := by
  decide

/-- C9 (amended): after either one or two reset calls every cell is
Susceptible with daysRemaining 0 (with a freshly drawn contact count);
the second reset behaves exactly like resetting the original grid with
the advanced generator state, and the grid shape is unchanged — but the
two resulting states need not be equal, because every contact count is
redrawn. -/
theorem reset_idempotent_up_to_draws (p : Pathogen σ) (m : Grid) (g : σ) :
    (∀ a b : Int,
      (getC (resetGrid p m g).1 a b).stage = 0 ∧
      (getC (resetGrid p m g).1 a b).days = 0) ∧
    (∀ a b : Int,
      (getC (resetGrid p (resetGrid p m g).1 (resetGrid p m g).2).1 a b).stage = 0 ∧
      (getC (resetGrid p (resetGrid p m g).1 (resetGrid p m g).2).1 a b).days = 0) ∧
    resetGrid p (resetGrid p m g).1 (resetGrid p m g).2 =
      resetGrid p m (resetGrid p m g).2 ∧
    sameShape (resetGrid p (resetGrid p m g).1 (resetGrid p m g).2).1
      (resetGrid p m g).1 :=
  ⟨fun a b => resetGrid_stage p m g a b,
   fun a b => resetGrid_stage p (resetGrid p m g).1 (resetGrid p m g).2 a b,
   resetGrid_shape_only p (resetGrid p m g).1 m (resetGrid p m g).2
     (sameShape_resetGrid p m g),
   sameShape_resetGrid p (resetGrid p m g).1 (resetGrid p m g).2⟩

/-- C10: seedDisease converts the drawn flat index k to
row `k / rows` and column `k mod rows`, using the row count for both;
the computed cell is valid for every k in `[0, rows*cols)` exactly when
the grid is square, in which case the mapping is also injective (each
flat index names one distinct cell, so a uniform k yields a uniform
cell); on any non-square grid some k in range yields a row or column
outside the grid bounds. -/
theorem seed_index_valid_iff_square (m : Grid) (R C : Nat)
    (hR : m.length = R) (hC : colCount m = C) (h1 : 1 ≤ R) (h2 : 1 ≤ C) :
    ((∀ k, k < R * C → seedRowIdx m k < R ∧ seedColIdx m k < C) ↔ R = C) ∧
    (R = C → ∀ k1 k2, k1 < R * C → k2 < R * C →
      seedRowIdx m k1 = seedRowIdx m k2 → seedColIdx m k1 = seedColIdx m k2 →
      k1 = k2) := by
  constructor
  · exact seedIdx_bounds_iff m R C hR hC h1 h2
  · intro hRC
    subst hRC
    exact seedIdx_injective m R hR h1

/-- Witness for C10 on a non-square 2 × 3 grid. -/
theorem seed_index_valid_iff_square_witness :
    ((∀ k, k < 2 * 3 → seedRowIdx grid23 k < 2 ∧ seedColIdx grid23 k < 3) ↔
      2 = 3) ∧
    (2 = 3 → ∀ k1 k2, k1 < 2 * 3 → k2 < 2 * 3 →
      seedRowIdx grid23 k1 = seedRowIdx grid23 k2 →
      seedColIdx grid23 k1 = seedColIdx grid23 k2 → k1 = k2) :=
  seed_index_valid_iff_square grid23 2 3 (by decide) (by decide) (by decide)
    (by decide)

end Ghostmap
